import Mathlib

/-!
# Verification of the wirebit core

Shallow embedding of the wirebit wire-frame format, frame ring,
deterministic link model and shared-memory link, with the protocol
endpoints' send/receive paths, translated from the C++ headers under
`include/wirebit/`.  Machine integers are modelled as `Nat` with an
explicit `% 2^w` wherever the C++ unsigned arithmetic can wrap; byte
sequences are `List Nat` whose elements are below 256 whenever they come
from the encoders.
-/

namespace Wirebit

/-- Error kinds of the `datapod::Error` taxonomy used by the core
(`invalid_argument`, `timeout`, `format`, `io_error`, `not_found`). -/
inductive ErrorKind where
  | invalidArgument
  | timeout
  | format
  | ioError
  | notFound
deriving DecidableEq, Repr

/-- Success-or-error outcome, mirroring `datapod::Result<T, Error>`
(only the error kind of the carried `Error` is modelled). -/
inductive Res (α : Type) where
  | ok : α → Res α
  | err : ErrorKind → Res α
deriving DecidableEq, Repr

/-- Little-endian encoding of `n` into `w` bytes (the layout `memcpy`
produces for a `w`-byte unsigned field of a packed struct on a
little-endian target). -/
def encU : Nat → Nat → List Nat
  | 0, _ => []
  | w + 1, n => n % 256 :: encU w (n / 256)

/-- Little-endian decoding of a byte list. -/
def decU : List Nat → Nat
  | [] => 0
  | b :: bs => b + 256 * decU bs

/-- The 44-byte packed frame header of `wirebit::FrameHeader`. -/
@[ext]
structure FrameHeader where
  magic : Nat
  version : Nat
  frame_type : Nat
  flags : Nat
  tx_timestamp_ns : Nat
  deliver_at_ns : Nat
  src_endpoint_id : Nat
  dst_endpoint_id : Nat
  payload_len : Nat
  meta_len : Nat
deriving DecidableEq, Repr

/-- `wirebit::FrameType` numeric value `SERIAL = 1`. -/
def frameTypeSerial : Nat := 1

/-- `wirebit::FrameType` numeric value `CAN = 2`. -/
def frameTypeCan : Nat := 2

/-- `wirebit::FrameType` numeric value `ETHERNET = 3`. -/
def frameTypeEthernet : Nat := 3

/-- `wirebit::FrameType` numeric value `IP = 4`. -/
def frameTypeIp : Nat := 4

/-- A `wirebit::Frame`: header, payload bytes, metadata bytes. -/
@[ext]
structure Frame where
  header : FrameHeader
  payload : List Nat
  meta : List Nat
deriving DecidableEq, Repr

/-- `Frame::total_size()`:
`sizeof(FrameHeader) + header.payload_len + header.meta_len`. -/
def totalSize (f : Frame) : Nat :=
  44 + f.header.payload_len + f.header.meta_len

/-- Byte image of the packed header, field by field in declaration
order with little-endian fixed-width fields (what
`memcpy(&frame.header, ...)` reads and writes). -/
def encodeHeader (h : FrameHeader) : List Nat :=
  encU 4 h.magic ++ encU 2 h.version ++ encU 2 h.frame_type ++ encU 4 h.flags ++
    encU 8 h.tx_timestamp_ns ++ encU 8 h.deliver_at_ns ++ encU 4 h.src_endpoint_id ++
    encU 4 h.dst_endpoint_id ++ encU 4 h.payload_len ++ encU 4 h.meta_len

/-- Reading the packed header back out of a byte sequence
(`std::memcpy(&frame.header, data.data(), sizeof(FrameHeader))`):
each field is the little-endian value of its slice of the first
44 bytes. -/
def decodeHeader (bs : List Nat) : FrameHeader :=
  let b1 := bs.drop 4
  let b2 := b1.drop 2
  let b3 := b2.drop 2
  let b4 := b3.drop 4
  let b5 := b4.drop 8
  let b6 := b5.drop 8
  let b7 := b6.drop 4
  let b8 := b7.drop 4
  let b9 := b8.drop 4
  { magic := decU (bs.take 4)
    version := decU (b1.take 2)
    frame_type := decU (b2.take 2)
    flags := decU (b3.take 4)
    tx_timestamp_ns := decU (b4.take 8)
    deliver_at_ns := decU (b5.take 8)
    src_endpoint_id := decU (b6.take 4)
    dst_endpoint_id := decU (b7.take 4)
    payload_len := decU (b8.take 4)
    meta_len := decU (b9.take 4) }

/-- `wirebit::encode_frame`: header bytes, then payload, then meta. -/
def encode_frame (f : Frame) : List Nat :=
  encodeHeader f.header ++ f.payload ++ f.meta

/-- `wirebit::decode_frame`: size gate, magic gate, version gate,
completeness gate, then payload and meta extraction. -/
def decode_frame (data : List Nat) : Res Frame :=
  if data.length < 44 then .err .invalidArgument
  else
    let h := decodeHeader data
    if h.magic ≠ 0x57424954 then .err .invalidArgument
    else if h.version ≠ 1 then .err .invalidArgument
    else if data.length < 44 + h.payload_len + h.meta_len then .err .invalidArgument
    else .ok { header := h
               payload := (data.drop 44).take h.payload_len
               meta := (data.drop (44 + h.payload_len)).take h.meta_len }

/-- All header fields fit their fixed C++ widths (automatic for the
`uint16_t`/`uint32_t`/`uint64_t` fields of `wirebit::FrameHeader`). -/
def HeaderFits (h : FrameHeader) : Prop :=
  h.magic < 2 ^ 32 ∧ h.version < 2 ^ 16 ∧ h.frame_type < 2 ^ 16 ∧ h.flags < 2 ^ 32 ∧
    h.tx_timestamp_ns < 2 ^ 64 ∧ h.deliver_at_ns < 2 ^ 64 ∧ h.src_endpoint_id < 2 ^ 32 ∧
    h.dst_endpoint_id < 2 ^ 32 ∧ h.payload_len < 2 ^ 32 ∧ h.meta_len < 2 ^ 32

instance (h : FrameHeader) : Decidable (HeaderFits h) := by
  unfold HeaderFits; infer_instance

/-- A valid frame in the sense of the data model (§3 of the design):
magic and version carry their fixed values, all fields fit their
widths, and the two length fields equal the lengths of the payload and
meta byte sequences. -/
def ValidFrame (f : Frame) : Prop :=
  HeaderFits f.header ∧ f.header.magic = 0x57424954 ∧ f.header.version = 1 ∧
    f.header.payload_len = f.payload.length ∧ f.header.meta_len = f.meta.length

instance (f : Frame) : Decidable (ValidFrame f) := by
  unfold ValidFrame; infer_instance

theorem encU_length (w n : Nat) : (encU w n).length = w := by
  induction w generalizing n with
  | zero => rfl
  | succ k ih => simp [encU, ih]

theorem decU_encU (w n : Nat) : decU (encU w n) = n % 256 ^ w := by
  induction w generalizing n with
  | zero => simp [encU, decU, Nat.mod_one]
  | succ k ih =>
    simp only [encU, decU, ih]
    rw [Nat.pow_succ, Nat.mul_comm (256 ^ k) 256, ← Nat.mod_mul_right_div_self]
    have h1 : n % 256 = n % (256 * 256 ^ k) % 256 :=
      (Nat.mod_mod_of_dvd n ⟨256 ^ k, rfl⟩).symm
    rw [h1, Nat.mod_add_div]

theorem decU_encU_of_lt {w n : Nat} (h : n < 256 ^ w) : decU (encU w n) = n := by
  rw [decU_encU, Nat.mod_eq_of_lt h]

theorem take_encU_append (w n : Nat) (rest : List Nat) :
    ((encU w n ++ rest).take w) = encU w n := by
  have h := List.take_left (encU w n) rest
  rwa [encU_length] at h

theorem drop_encU_append (w n : Nat) (rest : List Nat) :
    ((encU w n ++ rest).drop w) = rest := by
  have h := List.drop_left (encU w n) rest
  rwa [encU_length] at h

theorem encodeHeader_length (h : FrameHeader) : (encodeHeader h).length = 44 := by
  simp [encodeHeader, encU_length]

/-- Decoding the packed header back from its byte image recovers every
field modulo its width. -/
theorem decodeHeader_encodeHeader (h : FrameHeader) (rest : List Nat) :
    decodeHeader (encodeHeader h ++ rest) =
      { magic := h.magic % 2 ^ 32
        version := h.version % 2 ^ 16
        frame_type := h.frame_type % 2 ^ 16
        flags := h.flags % 2 ^ 32
        tx_timestamp_ns := h.tx_timestamp_ns % 2 ^ 64
        deliver_at_ns := h.deliver_at_ns % 2 ^ 64
        src_endpoint_id := h.src_endpoint_id % 2 ^ 32
        dst_endpoint_id := h.dst_endpoint_id % 2 ^ 32
        payload_len := h.payload_len % 2 ^ 32
        meta_len := h.meta_len % 2 ^ 32 } := by
  have e32 : (256 : Nat) ^ 4 = 2 ^ 32 := by norm_num
  have e16 : (256 : Nat) ^ 2 = 2 ^ 16 := by norm_num
  have e64 : (256 : Nat) ^ 8 = 2 ^ 64 := by norm_num
  simp only [decodeHeader, encodeHeader, List.append_assoc, take_encU_append,
    drop_encU_append, decU_encU, e32, e16, e64]

theorem drop_encodeHeader_append (h : FrameHeader) (rest : List Nat) :
    ((encodeHeader h ++ rest).drop 44) = rest := by
  have hd := List.drop_left (encodeHeader h) rest
  rwa [encodeHeader_length] at hd

theorem decodeHeader_of_fits (h : FrameHeader) (rest : List Nat) (hf : HeaderFits h) :
    decodeHeader (encodeHeader h ++ rest) = h := by
  obtain ⟨h1, h2, h3, h4, h5, h6, h7, h8, h9, h10⟩ := hf
  rw [decodeHeader_encodeHeader]
  ext <;> simp <;> omega

/-- C3: For every valid frame `f` (payload and meta lengths consistent
with the header, fields within their fixed widths, magic and version
carrying their mandated constants), `decode_frame (encode_frame f)`
succeeds and returns `f` itself: every header field and all payload
and meta bytes are preserved exactly. -/
theorem decode_frame_encode_frame (f : Frame) (hv : ValidFrame f) :
    decode_frame (encode_frame f) = .ok f := by
  obtain ⟨hfits, hmagic, hver, hp, hm⟩ := hv
  have hsplit : encode_frame f = encodeHeader f.header ++ (f.payload ++ f.meta) := by
    simp [encode_frame]
  have hlen : (encode_frame f).length = 44 + f.payload.length + f.meta.length := by
    simp [encode_frame, encodeHeader_length]; omega
  have hdec : decodeHeader (encode_frame f) = f.header := by
    rw [hsplit, decodeHeader_of_fits _ _ hfits]
  have hdrop : (encode_frame f).drop 44 = f.payload ++ f.meta := by
    rw [hsplit, drop_encodeHeader_append]
  simp only [decode_frame, hdec]
  rw [if_neg (by omega), if_neg (by simp [hmagic]), if_neg (by simp [hver]),
    if_neg (by omega)]
  have hpay : ((encode_frame f).drop 44).take f.header.payload_len = f.payload := by
    rw [hdrop, hp, List.take_left]
  have hmeta : ((encode_frame f).drop (44 + f.header.payload_len)).take f.header.meta_len
      = f.meta := by
    rw [← List.drop_drop, hdrop, hp, List.drop_left, hm, List.take_length]
  rw [hpay, hmeta]

/-- The spec's concrete round-trip scenario frame (type CAN, src 42,
payload DE AD BE EF, tx timestamp 1000000), extended with a two-byte
meta section. -/
def scenarioFrame : Frame :=
  { header :=
      { magic := 0x57424954, version := 1, frame_type := frameTypeCan, flags := 0
        tx_timestamp_ns := 1000000, deliver_at_ns := 0, src_endpoint_id := 42
        dst_endpoint_id := 0, payload_len := 4, meta_len := 2 }
    payload := [0xDE, 0xAD, 0xBE, 0xEF]
    meta := [7, 9] }

/-- C3 witness: the round-trip law instantiated on `scenarioFrame`. -/
theorem decode_frame_encode_frame_witness :
    ValidFrame scenarioFrame ∧
      decode_frame (encode_frame scenarioFrame) = .ok scenarioFrame :=
  ⟨by decide, decode_frame_encode_frame scenarioFrame (by decide)⟩

theorem take_encodeHeader_append (h : FrameHeader) (rest : List Nat) :
    ((encodeHeader h ++ rest).take 44) = encodeHeader h := by
  have ht := List.take_left (encodeHeader h) rest
  rwa [encodeHeader_length] at ht

/-- C7 counterexample: 44 zero bytes have a header whose magic is 0,
not 0x57424954; `decode_frame` rejects them with the error kind
`invalid_argument` - not with the distinct kind `format` the claim
names. -/
theorem decode_frame_zero_header_invalid_argument :
    decode_frame (List.replicate 44 0) = .err .invalidArgument ∧
      ErrorKind.invalidArgument ≠ ErrorKind.format := by
  constructor
  · decide
  · decide

/-- C7 amended: on a byte sequence of at least 44 bytes whose header
magic is not 0x57424954 or whose version is not 1, `decode_frame`
fails with the error kind `invalid_argument` (the code tags both
mismatches `Error::invalid_argument`; no separate `format` kind is
produced). -/
theorem decode_frame_bad_magic_or_version (data : List Nat) (hlen : 44 ≤ data.length)
    (hbad : (decodeHeader data).magic ≠ 0x57424954 ∨ (decodeHeader data).version ≠ 1) :
    decode_frame data = .err .invalidArgument := by
  simp only [decode_frame]
  rw [if_neg (by omega)]
  by_cases hmg : (decodeHeader data).magic ≠ 0x57424954
  · rw [if_pos hmg]
  · rw [if_neg hmg]
    have hv : (decodeHeader data).version ≠ 1 := by tauto
    rw [if_pos hv]

/-- A header with the mandated magic but unsupported version 2. -/
def versionTwoHeader : FrameHeader :=
  { magic := 0x57424954, version := 2, frame_type := frameTypeSerial, flags := 0
    tx_timestamp_ns := 0, deliver_at_ns := 0, src_endpoint_id := 0
    dst_endpoint_id := 0, payload_len := 0, meta_len := 0 }

/-- C7 amended witness: a header with the right magic but version 2 is
rejected with `invalid_argument`. -/
theorem decode_frame_bad_magic_or_version_witness :
    decode_frame (encodeHeader versionTwoHeader ++ []) = .err .invalidArgument :=
  decode_frame_bad_magic_or_version _ (by decide) (by decide)

/-- `(record_size + 7) & ~7` of `FrameRing`: the next multiple of 8 at
or above `n` (clearing the low three bits of `n + 7`). -/
def align8 (n : Nat) : Nat := (n + 7) / 8 * 8

theorem align8_ge (n : Nat) : n ≤ align8 n := by
  unfold align8; omega

theorem align8_lt (n : Nat) : align8 n < n + 8 := by
  unfold align8; omega

/-- Modelled from the spec: the `datapod::RingBuffer<SPSC, Byte>`
underlying `FrameRing` (§4.1 of the design, an external dependency of
this repository): a byte FIFO of fixed capacity; `push` fails with
*timeout* when no byte is free and `pop` fails with *timeout* when no
byte is available. `data` holds the unread bytes, oldest first. -/
structure ByteRing where
  cap : Nat
  data : List Nat
deriving DecidableEq, Repr

/-- `FrameRing::pop_bytes`: pop `n` bytes one at a time; a pop from an
exhausted ring fails with *timeout*, the bytes popped before the
failure staying consumed (`drop n` of a list shorter than `n` is
`[]`). -/
def popB (r : ByteRing) (n : Nat) : Res (List Nat) × ByteRing :=
  if r.data.length < n then (.err .timeout, { r with data := r.data.drop n })
  else (.ok (r.data.take n), { r with data := r.data.drop n })

/-- Modelled from the spec: `Frame::is_valid` (called by
`FrameRing::pop_frame` but not defined in the provided sources; its
failure message is "payload_len mismatch"): the §3 invariants, that
`payload_len` equals the length of `payload` and likewise for `meta`. -/
def isValid (f : Frame) : Bool :=
  f.header.payload_len == f.payload.length && f.header.meta_len == f.meta.length

/-- `FrameRing::push_frame`: computes
`record_size = 4 + 44 + payload_size`, aligns it to 8 bytes, rejects
with *timeout* when the free space is smaller, and otherwise appends
the `u32` record length (truncated to 32 bits), the 44 header bytes,
the payload bytes, and the zero padding.  The meta bytes are never
written. -/
def pushFrame (r : ByteRing) (f : Frame) : Res ByteRing :=
  let record_size := 4 + 44 + f.payload.length
  let aligned_size := align8 record_size
  let padding := aligned_size - record_size
  let record : List Nat :=
    encU 4 (aligned_size % 2 ^ 32) ++ encodeHeader f.header ++ f.payload ++
      List.replicate padding 0
  if r.cap - r.data.length < aligned_size then .err .timeout
  else .ok { r with data := r.data ++ record }

/-- `FrameRing::pop_frame`: reads the 4-byte record length, validates
`record_len ≠ 0 ∧ record_len ≤ capacity`, reads the 44 header bytes,
the payload, and the padding, and finally checks `is_valid`. -/
def popFrame (r : ByteRing) : Res Frame × ByteRing :=
  match popB r 4 with
  | (.err e, r') => (.err e, r')
  | (.ok lenBytes, r1) =>
    let record_len := decU lenBytes
    if record_len = 0 then (.err .invalidArgument, r1)
    else if r.cap < record_len then (.err .invalidArgument, r1)
    else
      match popB r1 44 with
      | (.err e, r') => (.err e, r')
      | (.ok headerBytes, r2) =>
        let h := decodeHeader headerBytes
        match popB r2 h.payload_len with
        | (.err e, r') => (.err e, r')
        | (.ok payload, r3) =>
          let record_size := 4 + 44 + h.payload_len
          let padding := align8 record_size - record_size
          match popB r3 padding with
          | (.err e, r') => (.err e, r')
          | (.ok _, r4) =>
            let fr : Frame := { header := h, payload := payload, meta := [] }
            if isValid fr then (.ok fr, r4)
            else (.err .invalidArgument, r4)

/-- A frame whose only content is a single meta byte. -/
def metaFrame : Frame :=
  { header :=
      { magic := 0x57424954, version := 1, frame_type := frameTypeSerial, flags := 0
        tx_timestamp_ns := 0, deliver_at_ns := 0, src_endpoint_id := 0
        dst_endpoint_id := 0, payload_len := 0, meta_len := 1 }
    payload := []
    meta := [1] }

/-- C2 counterexample: pushing `metaFrame` (payload_len 0, meta_len 1)
writes a 48-byte record - `align8(4 + 44 + payload_len)`, holding only
the length prefix and the header, with the meta byte nowhere in it -
not the 56-byte `align8(4 + 44 + 0 + 1)` record the claim describes;
and popping that record back does not return the meta intact but fails
the frame validity check with `invalid_argument`. -/
theorem push_frame_meta_counterexample :
    pushFrame ⟨1024, []⟩ metaFrame = .ok ⟨1024, encU 4 48 ++ encodeHeader metaFrame.header⟩ ∧
      (encU 4 48 ++ encodeHeader metaFrame.header).length = 48 ∧
      48 ≠ align8 (4 + 44 + 0 + 1) ∧
      (popFrame ⟨1024, encU 4 48 ++ encodeHeader metaFrame.header⟩).1 =
        .err .invalidArgument := by
  refine ⟨by decide, by decide, by decide, by decide⟩

/-- The byte record `FrameRing::push_frame` lays down for a frame. -/
def pushedRecord (f : Frame) : List Nat :=
  encU 4 (align8 (4 + 44 + f.payload.length) % 2 ^ 32) ++ encodeHeader f.header ++
    f.payload ++
    List.replicate (align8 (4 + 44 + f.payload.length) - (4 + 44 + f.payload.length)) 0

/-- C2 amended: `push_frame` writes a record of
`record_len = align8(4 + 44 + payload_len)` bytes - the u32 length
prefix, the 44-byte header, the payload and zero padding; meta bytes
are never written.  A frame with empty meta pushed onto an empty ring
and popped back comes back intact. -/
theorem push_pop_frame_no_meta (cap : Nat) (f : Frame)
    (hfits : HeaderFits f.header)
    (hp : f.header.payload_len = f.payload.length)
    (hm : f.header.meta_len = 0) (hmeta : f.meta = [])
    (hsmall : f.payload.length + 56 < 2 ^ 32)
    (hcap : align8 (4 + 44 + f.payload.length) ≤ cap) :
    pushFrame ⟨cap, []⟩ f = .ok ⟨cap, pushedRecord f⟩ ∧
      (pushedRecord f).length = align8 (4 + 44 + f.payload.length) ∧
      popFrame ⟨cap, pushedRecord f⟩ = (.ok f, ⟨cap, []⟩) := by
  have halign := align8_ge (4 + 44 + f.payload.length)
  have halign2 := align8_lt (4 + 44 + f.payload.length)
  have hAA : align8 (48 + f.payload.length) = align8 (4 + 44 + f.payload.length) := rfl
  have hmod : align8 (4 + 44 + f.payload.length) % 2 ^ 32 =
      align8 (4 + 44 + f.payload.length) := Nat.mod_eq_of_lt (by omega)
  have hdEq : decodeHeader (encodeHeader f.header) = f.header := by
    have hh := decodeHeader_of_fits f.header [] hfits
    rwa [List.append_nil] at hh
  refine ⟨?_, ?_, ?_⟩
  · simp only [pushFrame, pushedRecord]
    rw [if_neg (by simp; omega)]
    simp
  · simp [pushedRecord, encU_length, encodeHeader_length]
    omega
  · simp only [popFrame, popB, pushedRecord, List.append_assoc]
    rw [if_neg (by simp [encU_length, encodeHeader_length])]
    simp only [take_encU_append, drop_encU_append, decU_encU]
    have e32 : (256 : Nat) ^ 4 = 2 ^ 32 := by norm_num
    rw [e32, Nat.mod_mod_of_dvd _ (dvd_refl _), hmod]
    rw [if_neg (by omega), if_neg (by omega)]
    rw [if_neg (by simp [encodeHeader_length])]
    rw [take_encodeHeader_append, drop_encodeHeader_append]
    simp only [hdEq, hp]
    rw [if_neg (by simp)]
    rw [List.take_left, List.drop_left]
    have hfr : ({ header := f.header, payload := f.payload, meta := [] } : Frame) = f := by
      ext1 <;> simp [hmeta]
    simp [isValid, hp, hm, hfr]

/-- C2 amended witness: a two-byte payload frame with empty meta
round-trips through a 64-byte ring. -/
def smallFrame : Frame :=
  { header :=
      { magic := 0x57424954, version := 1, frame_type := frameTypeSerial, flags := 0
        tx_timestamp_ns := 5, deliver_at_ns := 0, src_endpoint_id := 1
        dst_endpoint_id := 0, payload_len := 2, meta_len := 0 }
    payload := [10, 20]
    meta := [] }

theorem push_pop_frame_no_meta_witness :
    pushFrame ⟨64, []⟩ smallFrame = .ok ⟨64, pushedRecord smallFrame⟩ ∧
      (pushedRecord smallFrame).length = align8 (4 + 44 + smallFrame.payload.length) ∧
      popFrame ⟨64, pushedRecord smallFrame⟩ = (.ok smallFrame, ⟨64, []⟩) :=
  push_pop_frame_no_meta 64 smallFrame (by decide) (by decide) (by decide) (by decide)
    (by decide) (by decide)

/-- C4 counterexample: a ring holding the four bytes `[0,0,0,0]`
(record length 0, capacity 64): `pop_frame` returns the invalid-record
error, but the ring is left empty - the four length-prefix bytes were
consumed, so the read cursor did not stay unchanged. -/
theorem pop_frame_zero_record_consumes :
    popFrame ⟨64, [0, 0, 0, 0]⟩ = (.err .invalidArgument, ⟨64, []⟩) ∧
      ([] : List Nat) ≠ [0, 0, 0, 0] := by
  refine ⟨by decide, by decide⟩

/-- C4 amended: when the 4-byte record length read by `pop_frame`
decodes to `0` or exceeds the capacity, `pop_frame` returns an
invalid-record error (`invalid_argument`); the four length-prefix
bytes have been consumed - the read cursor advances by exactly 4 - and
no further bytes are consumed by the failed call. -/
theorem pop_frame_invalid_record (r : ByteRing) (h4 : 4 ≤ r.data.length)
    (hbad : decU (r.data.take 4) = 0 ∨ r.cap < decU (r.data.take 4)) :
    popFrame r = (.err .invalidArgument, { r with data := r.data.drop 4 }) := by
  have hlt : ¬ (r.data.length < 4) := by omega
  simp only [popFrame, popB, if_neg hlt]
  rcases hbad with h0 | hc
  · rw [if_pos h0]
  · rw [if_neg (by omega), if_pos hc]

/-- C4 amended witness: a prefix decoding to 65535 on an 8-byte ring
is rejected and exactly the four prefix bytes are consumed. -/
theorem pop_frame_invalid_record_witness :
    popFrame ⟨8, [255, 255, 0, 0, 1, 2, 3]⟩ = (.err .invalidArgument, ⟨8, [1, 2, 3]⟩) :=
  pop_frame_invalid_record ⟨8, [255, 255, 0, 0, 1, 2, 3]⟩ (by decide) (by decide)

/-- One step of the `DeterministicRNG` linear congruential generator:
`state * 6364136223846793005 + 1442695040888963407` with 64-bit wrap;
`next()` stores the new state and returns it. -/
def rngNext (s : Nat) : Nat :=
  (s * 6364136223846793005 + 1442695040888963407) % 2 ^ 64

/-- `DeterministicRNG::range(max)`: `0` without advancing the state
when `max = 0`, otherwise `next() % max` together with the advanced
state. -/
def rngRange (s bound : Nat) : Nat × Nat :=
  if bound = 0 then (0, s)
  else (rngNext s % bound, rngNext s)

/-- `wirebit::LinkModel` configuration.  The three impairment
probabilities (`drop_prob`, `dup_prob`, `corrupt_prob`) are IEEE-754
doubles consumed only by `determine_frame_action`; that per-frame
decision enters `send` as an explicit `FrameAction` argument in this
embedding, so the probability fields are not carried here. -/
structure LinkModel where
  base_latency_ns : Nat
  jitter_ns : Nat
  bandwidth_bps : Nat
  seed : Nat
deriving DecidableEq, Repr

/-- `wirebit::FrameAction`: what the link model decides to do with one
frame. -/
inductive FrameAction where
  | DELIVER
  | DROP
  | DUPLICATE
  | CORRUPT
deriving DecidableEq, Repr

/-- `wirebit::compute_deliver_at_ns`: latency is the base latency plus
a jitter draw when `jitter_ns > 0`; the transmit time is
`payload_len * 8 * 1e9 / bandwidth_bps` when bandwidth-limited and 0
otherwise; `send_time = max(now, next_send_time)`; the function
returns `deliver_at = send_time + latency`, the updated
`next_send_time = send_time + transmit_time` and the RNG state, all
64-bit arithmetic wrapping. -/
def compute_deliver_at_ns (m : LinkModel) (now_ns payload_len nst s : Nat) :
    Nat × Nat × Nat :=
  let jres := if 0 < m.jitter_ns then rngRange s m.jitter_ns else (0, s)
  let latency := (m.base_latency_ns + jres.1) % 2 ^ 64
  let transmit_time_ns :=
    if 0 < m.bandwidth_bps then payload_len * 8 * 1000000000 % 2 ^ 64 / m.bandwidth_bps
    else 0
  let send_time := max now_ns nst
  let nst2 := (send_time + transmit_time_ns) % 2 ^ 64
  let deliver_at := (send_time + latency) % 2 ^ 64
  (deliver_at, nst2, jres.2)

/-- The bit-flip loop of `wirebit::corrupt_payload`: for each flip,
draw a byte index below the payload length, draw a bit index below 8,
and XOR the selected bit into the selected byte. -/
def flipBits : List Nat → Nat → Nat → List Nat × Nat
  | p, s, 0 => (p, s)
  | p, s, k + 1 =>
    let bres := rngRange s p.length
    let tres := rngRange bres.2 8
    let p2 := p.set bres.1 (Nat.xor (p.getD bres.1 0) (2 ^ tres.1))
    flipBits p2 tres.2 k

/-- `wirebit::corrupt_payload`: an empty payload is left unchanged
(and draws nothing); otherwise `1 + range(3)` bits are flipped. -/
def corruptPayload (p : List Nat) (s : Nat) : List Nat × Nat :=
  if p.length = 0 then (p, s)
  else
    let nres := rngRange s 3
    flipBits p nres.2 (1 + nres.1)

/-- `wirebit::ShmLinkStats` (uint64 counters). -/
structure ShmLinkStats where
  frames_sent : Nat
  frames_received : Nat
  frames_dropped : Nat
  frames_duplicated : Nat
  frames_corrupted : Nat
  bytes_sent : Nat
  bytes_received : Nat
deriving DecidableEq, Repr

/-- `wirebit::ShmLink` state: TX and RX frame rings, the optional
model with its RNG state and `next_send_time_` pacing cursor, and the
statistics. -/
structure ShmLink where
  tx_ring : ByteRing
  rx_ring : ByteRing
  has_model : Bool
  model : LinkModel
  rng : Nat
  next_send_time : Nat
  stats : ShmLinkStats
deriving DecidableEq, Repr

/-- Tail of `ShmLink::send` shared by the DELIVER and CORRUPT paths
and by the second copy of a DUPLICATE: compute the delivery time
(updating `next_send_time_` and the RNG even if the push then fails),
stamp `deliver_at_ns`, and push to TX. -/
def deliverPush (L : ShmLink) (now : Nat) (f : Frame) : Res Unit × ShmLink :=
  let c := compute_deliver_at_ns L.model now f.payload.length L.next_send_time L.rng
  let f2 : Frame := { f with header := { f.header with deliver_at_ns := c.1 } }
  let L2 := { L with next_send_time := c.2.1, rng := c.2.2 }
  match pushFrame L2.tx_ring f2 with
  | .err e => (.err e, L2)
  | .ok tx2 => (.ok (), { L2 with tx_ring := tx2 })

/-- `ShmLink::send`.  The outcome of `determine_frame_action` (whose
probability draws are floating-point and outside this embedding)
enters as the explicit argument `act`; every other step follows the
source: the sent counters are bumped first; with a model, DROP
discards the frame and reports success, DUPLICATE pushes the
unstamped original and falls through, CORRUPT flips payload bits
(advancing the RNG) and falls through; the fall-through stamps
`deliver_at_ns` and pushes; without a model the frame is pushed
unchanged. -/
def sendA (L : ShmLink) (now : Nat) (act : FrameAction) (f : Frame) :
    Res Unit × ShmLink :=
  let st1 :=
    { L.stats with
      frames_sent := (L.stats.frames_sent + 1) % 2 ^ 64
      bytes_sent := (L.stats.bytes_sent + totalSize f) % 2 ^ 64 }
  let L1 := { L with stats := st1 }
  if L.has_model then
    match act with
    | .DROP =>
      let st2 := { st1 with frames_dropped := (st1.frames_dropped + 1) % 2 ^ 64 }
      (.ok (), { L1 with stats := st2 })
    | .DUPLICATE =>
      let st2 := { st1 with frames_duplicated := (st1.frames_duplicated + 1) % 2 ^ 64 }
      let L2 := { L1 with stats := st2 }
      match pushFrame L2.tx_ring f with
      | .err e => (.err e, L2)
      | .ok tx2 => deliverPush { L2 with tx_ring := tx2 } now f
    | .CORRUPT =>
      let st2 := { st1 with frames_corrupted := (st1.frames_corrupted + 1) % 2 ^ 64 }
      let cres := corruptPayload f.payload L1.rng
      let L2 := { L1 with stats := st2, rng := cres.2 }
      deliverPush L2 now { f with payload := cres.1 }
    | .DELIVER => deliverPush L1 now f
  else
    match pushFrame L1.tx_ring f with
    | .err e => (.err e, L1)
    | .ok tx2 => (.ok (), { L1 with tx_ring := tx2 })

/-- `ShmLink::recv`: pop from RX; on success bump the receive
counters; then, with a model, a frame whose non-zero `deliver_at_ns`
is still in the future yields a *timeout* error - and the popped frame
is stored nowhere, so it is gone from the link. -/
def recv (L : ShmLink) (now : Nat) : Res Frame × ShmLink :=
  match popFrame L.rx_ring with
  | (.err e, rx2) => (.err e, { L with rx_ring := rx2 })
  | (.ok f, rx2) =>
    let st1 :=
      { L.stats with
        frames_received := (L.stats.frames_received + 1) % 2 ^ 64
        bytes_received := (L.stats.bytes_received + totalSize f) % 2 ^ 64 }
    let L1 := { L with rx_ring := rx2, stats := st1 }
    if L.has_model then
      if 0 < f.header.deliver_at_ns then
        if now < f.header.deliver_at_ns then (.err .timeout, L1)
        else (.ok f, L1)
      else (.ok f, L1)
    else (.ok f, L1)

/-- C6: `compute_deliver_at_ns` returns
`max(now, next_send_time) + latency` with
`latency = base_latency_ns + rng.range(jitter_ns)` when
`jitter_ns > 0` and `base_latency_ns` alone otherwise, and updates
`next_send_time` to `max(now, next_send_time) + transmit_time` with
`transmit_time = payload_len * 8 * 1e9 / bandwidth_bps` when
`bandwidth_bps > 0` and `0` when bandwidth is unlimited (stated under
no-64-bit-wrap side conditions). -/
theorem compute_deliver_at_ns_spec (m : LinkModel) (now_ns payload_len nst s : Nat)
    (h1 : max now_ns nst + (m.base_latency_ns + (rngRange s m.jitter_ns).1) < 2 ^ 64)
    (h2 : payload_len * 8 * 1000000000 < 2 ^ 64)
    (h3 : max now_ns nst + payload_len * 8 * 1000000000 / m.bandwidth_bps < 2 ^ 64) :
    compute_deliver_at_ns m now_ns payload_len nst s =
      (max now_ns nst +
        (m.base_latency_ns + (if 0 < m.jitter_ns then (rngRange s m.jitter_ns).1 else 0)),
       max now_ns nst +
        (if 0 < m.bandwidth_bps then payload_len * 8 * 1000000000 / m.bandwidth_bps else 0),
       if 0 < m.jitter_ns then (rngRange s m.jitter_ns).2 else s) := by
  unfold compute_deliver_at_ns
  rw [Nat.mod_eq_of_lt h2]
  rcases Nat.le_total now_ns nst with hmn | hmn <;>
    [rw [Nat.max_eq_right hmn] at h1 h3 ⊢; rw [Nat.max_eq_left hmn] at h1 h3 ⊢] <;>
    by_cases hj : 0 < m.jitter_ns <;> by_cases hb : 0 < m.bandwidth_bps <;>
    simp only [hj, hb, if_true, if_false, ite_true, ite_false, Prod.mk.injEq] <;>
    refine ⟨?_, ?_, ?_⟩ <;> first | trivial | rw [Nat.mod_eq_of_lt h3] | omega

/-- A sample model: 10 ns base latency, 4 ns jitter, 8 bps. -/
def sampleModel : LinkModel :=
  { base_latency_ns := 10, jitter_ns := 4, bandwidth_bps := 8, seed := 0 }

/-- C6 witness: the specification of `compute_deliver_at_ns`
instantiated on `sampleModel` at `now = 100`, `payload_len = 2`,
`next_send_time = 50`, RNG state 7. -/
theorem compute_deliver_at_ns_spec_witness :
    compute_deliver_at_ns sampleModel 100 2 50 7 =
      (max 100 50 +
        (sampleModel.base_latency_ns +
          (if 0 < sampleModel.jitter_ns then (rngRange 7 sampleModel.jitter_ns).1 else 0)),
       max 100 50 +
        (if 0 < sampleModel.bandwidth_bps then 2 * 8 * 1000000000 / sampleModel.bandwidth_bps
         else 0),
       if 0 < sampleModel.jitter_ns then (rngRange 7 sampleModel.jitter_ns).2 else 7) :=
  compute_deliver_at_ns_spec sampleModel 100 2 50 7 (by decide) (by decide) (by decide)

/-- C10: every `ShmLink::send` call increments `frames_sent` by one
and `bytes_sent` by the frame's `total_size()` - the counters are
bumped before the model decision and before any ring push - so a send
that fails because the TX ring is full and a send whose frame the
model drops are counted all the same.  Stated for every link state and
every action outcome, assuming the 64-bit counters do not wrap. -/
theorem shmLink_send_counts (L : ShmLink) (now : Nat) (act : FrameAction) (f : Frame)
    (h1 : L.stats.frames_sent + 1 < 2 ^ 64)
    (h2 : L.stats.bytes_sent + totalSize f < 2 ^ 64) :
    (sendA L now act f).2.stats.frames_sent = L.stats.frames_sent + 1 ∧
      (sendA L now act f).2.stats.bytes_sent = L.stats.bytes_sent + totalSize f := by
  have e1 : (L.stats.frames_sent + 1) % 2 ^ 64 = L.stats.frames_sent + 1 :=
    Nat.mod_eq_of_lt h1
  have e2 : (L.stats.bytes_sent + totalSize f) % 2 ^ 64 = L.stats.bytes_sent + totalSize f :=
    Nat.mod_eq_of_lt h2
  unfold sendA deliverPush
  cases act <;> by_cases hm2 : L.has_model <;>
    simp only [hm2, if_true, if_false, ite_true, ite_false] <;>
    repeat' split
  all_goals simp [e1, e2]
  all_goals omega

/-- A model-free link over two empty 64-byte rings. -/
def emptyLink : ShmLink :=
  { tx_ring := ⟨64, []⟩
    rx_ring := ⟨64, []⟩
    has_model := false
    model := { base_latency_ns := 0, jitter_ns := 0, bandwidth_bps := 0, seed := 0 }
    rng := 0
    next_send_time := 0
    stats := ⟨0, 0, 0, 0, 0, 0, 0⟩ }

/-- C10 witness: sending `smallFrame` over `emptyLink` bumps
`frames_sent` to 1 and `bytes_sent` by `total_size = 46`. -/
theorem shmLink_send_counts_witness :
    (sendA emptyLink 0 .DELIVER smallFrame).2.stats.frames_sent =
        emptyLink.stats.frames_sent + 1 ∧
      (sendA emptyLink 0 .DELIVER smallFrame).2.stats.bytes_sent =
        emptyLink.stats.bytes_sent + totalSize smallFrame :=
  shmLink_send_counts emptyLink 0 .DELIVER smallFrame (by decide) (by decide)

/-- A frame stamped for delivery at t = 100 ns (empty payload and
meta). -/
def futureFrame : Frame :=
  { header :=
      { magic := 0x57424954, version := 1, frame_type := frameTypeSerial, flags := 0
        tx_timestamp_ns := 0, deliver_at_ns := 100, src_endpoint_id := 1
        dst_endpoint_id := 0, payload_len := 0, meta_len := 0 }
    payload := []
    meta := [] }

/-- A modelled link whose RX ring holds exactly the on-ring record of
`futureFrame`. -/
def futureLink : ShmLink :=
  { tx_ring := ⟨256, []⟩
    rx_ring := ⟨256, pushedRecord futureFrame⟩
    has_model := true
    model := { base_latency_ns := 0, jitter_ns := 0, bandwidth_bps := 0, seed := 0 }
    rng := 0
    next_send_time := 0
    stats := ⟨0, 0, 0, 0, 0, 0, 0⟩ }

/-- C1 (code bug): with a model installed and `futureFrame` (due at
t = 100) at the head of the RX ring, `recv` at t = 50 does return the
*timeout* error the claim describes - but the frame is popped off the
ring and retained nowhere (the RX ring is empty afterwards, and there
is no pending buffer in `ShmLink`), so a retry at t = 100, past the
frame's `deliver_at_ns`, times out on the empty ring and the frame is
never surfaced.  This contradicts the source's own comment on that
branch, "Frame not ready yet - put it back and return timeout". -/
theorem shmLink_recv_future_frame_lost :
    (recv futureLink 50).1 = .err .timeout ∧
      (recv futureLink 50).2.rx_ring.data = [] ∧
      (recv (recv futureLink 50).2 100).1 = .err .timeout := by
  refine ⟨by decide, by decide, by decide⟩

/-- A modelled link with 2 ns of jitter (seed 0) and no bandwidth
limit. -/
def jitterLink : ShmLink :=
  { tx_ring := ⟨256, []⟩
    rx_ring := ⟨256, []⟩
    has_model := true
    model := { base_latency_ns := 0, jitter_ns := 2, bandwidth_bps := 0, seed := 0 }
    rng := 0
    next_send_time := 0
    stats := ⟨0, 0, 0, 0, 0, 0, 0⟩ }

/-- An immediate-delivery frame with empty payload and meta. -/
def plainFrame : Frame :=
  { header :=
      { magic := 0x57424954, version := 1, frame_type := frameTypeSerial, flags := 0
        tx_timestamp_ns := 0, deliver_at_ns := 0, src_endpoint_id := 1
        dst_endpoint_id := 0, payload_len := 0, meta_len := 0 }
    payload := []
    meta := [] }

/-- The `deliver_at_ns` of the frame at the head of a ring (0 when no
frame can be popped). -/
def headDeliverAt (r : ByteRing) : Nat :=
  match popFrame r with
  | (.ok f, _) => f.header.deliver_at_ns
  | (.err _, _) => 0

/-- The ring as it stands after popping one frame. -/
def ringAfterPop (r : ByteRing) : ByteRing := (popFrame r).2

/-- C5 counterexample: on `jitterLink` (base latency 0, jitter 2,
unlimited bandwidth, seed 0) two sends, both at t = 0 and both
succeeding, stamp `deliver_at_ns = 1` (first jitter draw is odd) and
then `deliver_at_ns = 0` (second draw is even): the stamped sequence
decreases even though the clock readings were non-decreasing, so the
claimed monotonicity does not hold for every jitter configuration. -/
theorem shmLink_send_jitter_not_monotone :
    (sendA jitterLink 0 .DELIVER plainFrame).1 = .ok () ∧
      (sendA (sendA jitterLink 0 .DELIVER plainFrame).2 0 .DELIVER plainFrame).1 = .ok () ∧
      headDeliverAt
        (sendA (sendA jitterLink 0 .DELIVER plainFrame).2 0 .DELIVER plainFrame).2.tx_ring = 1 ∧
      headDeliverAt
        (ringAfterPop
          (sendA (sendA jitterLink 0 .DELIVER plainFrame).2 0 .DELIVER plainFrame).2.tx_ring) = 0 := by
  refine ⟨by decide, by decide, by decide, by decide⟩

/-- The `deliver_at_ns` values that a sequence of `ShmLink::send`
calls stamps on its delivered frames: the fold of
`compute_deliver_at_ns` over the `(now, payload_len)` readings of the
successive sends, threading `next_send_time` and the RNG state exactly
as `ShmLink::send` does. -/
def stampedDelivers (m : LinkModel) (nst s : Nat) : List (Nat × Nat) → List Nat
  | [] => []
  | (now, plen) :: rest =>
    let c := compute_deliver_at_ns m now plen nst s
    c.1 :: stampedDelivers m c.2.1 c.2.2 rest

/-- No 64-bit wrap along the fold: at every step the send time plus
the base latency, the transmit-time product, and the advanced
`next_send_time` all stay below `2^64`. -/
def sendTimesFit (m : LinkModel) (nst : Nat) : List (Nat × Nat) → Bool
  | [] => true
  | (now, plen) :: rest =>
    let tt := if 0 < m.bandwidth_bps then plen * 8 * 1000000000 / m.bandwidth_bps else 0
    decide (max now nst + m.base_latency_ns < 2 ^ 64) &&
      decide (plen * 8 * 1000000000 < 2 ^ 64) &&
      decide (max now nst + tt < 2 ^ 64) &&
      sendTimesFit m (max now nst + tt) rest

/-- With `jitter_ns = 0` one `compute_deliver_at_ns` step is
deterministic: deliver at `send_time + base latency`, advance
`next_send_time` to `send_time + transmit_time`, RNG untouched. -/
theorem compute_deliver_jitter_zero (m : LinkModel) (hj : m.jitter_ns = 0)
    (now plen nst s : Nat)
    (hl : max now nst + m.base_latency_ns < 2 ^ 64)
    (hp : plen * 8 * 1000000000 < 2 ^ 64)
    (ht : max now nst +
        (if 0 < m.bandwidth_bps then plen * 8 * 1000000000 / m.bandwidth_bps else 0) < 2 ^ 64) :
    compute_deliver_at_ns m now plen nst s =
      (max now nst + m.base_latency_ns,
       max now nst +
        (if 0 < m.bandwidth_bps then plen * 8 * 1000000000 / m.bandwidth_bps else 0), s) := by
  unfold compute_deliver_at_ns
  have hj0 : ¬ (0 < m.jitter_ns) := by omega
  rw [Nat.mod_eq_of_lt hp]
  rcases Nat.le_total now nst with hmn | hmn <;>
    [rw [Nat.max_eq_right hmn] at hl ht ⊢; rw [Nat.max_eq_left hmn] at hl ht ⊢] <;>
    by_cases hb : 0 < m.bandwidth_bps <;>
    simp only [hj0, hb, if_true, if_false, ite_true, ite_false] at ht ⊢ <;>
    simp only [Prod.mk.injEq] <;>
    refine ⟨?_, ?_, ?_⟩ <;>
    first
      | trivial
      | rw [Nat.mod_eq_of_lt ht]
      | omega

/-- Auxiliary chain invariant: any lower bound `d ≤ next_send_time +
base latency` extends the stamped-delivery chain. -/
theorem stamped_chain_aux (m : LinkModel) (hj : m.jitter_ns = 0) :
    ∀ (inputs : List (Nat × Nat)) (nst s d : Nat),
      sendTimesFit m nst inputs = true →
      d ≤ nst + m.base_latency_ns →
      List.Chain' (· ≤ ·) (d :: stampedDelivers m nst s inputs) := by
  intro inputs
  induction inputs with
  | nil =>
    intro nst s d _ _
    simp [stampedDelivers]
  | cons hd tl ih =>
    obtain ⟨now, plen⟩ := hd
    intro nst s d hfit hdle
    simp only [sendTimesFit, Bool.and_eq_true, decide_eq_true_eq] at hfit
    obtain ⟨⟨⟨hf1, hf2⟩, hf3⟩, hf4⟩ := hfit
    simp only [stampedDelivers]
    rw [compute_deliver_jitter_zero m hj now plen nst s hf1 hf2 hf3]
    dsimp only
    rw [List.chain'_cons]
    have hx1 := Nat.le_max_left now nst
    have hx2 := Nat.le_max_right now nst
    refine ⟨by omega, ?_⟩
    exact ih _ s _ hf4 (by omega)

/-- C5 amended: for a link with a model whose `jitter_ns` is 0 (any
base latency, any bandwidth), across any sequence of sends whose
monotonic-clock readings are non-decreasing, the stamped
`deliver_at_ns` values form a non-decreasing sequence (under the
no-64-bit-wrap condition `sendTimesFit`).  With `jitter_ns > 0` the
sequence can decrease (`shmLink_send_jitter_not_monotone`). -/
theorem stamped_delivers_monotone (m : LinkModel) (hj : m.jitter_ns = 0)
    (inputs : List (Nat × Nat)) (nst s : Nat)
    (hfit : sendTimesFit m nst inputs = true)
    (hnow : List.Chain' (· ≤ ·) (inputs.map Prod.fst)) :
    List.Chain' (· ≤ ·) (stampedDelivers m nst s inputs) :=
  (stamped_chain_aux m hj inputs nst s 0 hfit (Nat.zero_le _)).tail

/-- C5 amended witness: a 5 ns base-latency, 8 bps model over three
sends at t = 0, 10, 10. -/
theorem stamped_delivers_monotone_witness :
    sendTimesFit ⟨5, 0, 8, 0⟩ 0 [(0, 1), (10, 2), (10, 0)] = true ∧
      List.Chain' (· ≤ ·) ([(0, 1), (10, 2), (10, 0)].map Prod.fst) ∧
      List.Chain' (· ≤ ·) (stampedDelivers ⟨5, 0, 8, 0⟩ 0 0 [(0, 1), (10, 2), (10, 0)]) :=
  ⟨by decide, by simp [List.chain'_cons],
    stamped_delivers_monotone ⟨5, 0, 8, 0⟩ rfl [(0, 1), (10, 2), (10, 0)] 0 0
      (by decide) (by simp [List.chain'_cons])⟩

/-- `wirebit::EthConfig` (the unused `calculate_fcs` flag is
omitted). -/
structure EthConfig where
  bandwidth_bps : Nat
  promiscuous : Bool
  rx_buffer_size : Nat
deriving DecidableEq, Repr

/-- The broadcast MAC FF:FF:FF:FF:FF:FF (`wirebit::MAC_BROADCAST`). -/
def macBroadcast : List Nat := [255, 255, 255, 255, 255, 255]

/-- `wirebit::parse_eth_frame`: destination MAC (bytes 0-5), source
MAC (bytes 6-11), ethertype in network byte order (bytes 12-13), and
the payload (everything after byte 14); fails with `invalid_argument`
below 14 bytes. -/
def parseEthFrame (frame : List Nat) :
    Res (List Nat × List Nat × Nat × List Nat) :=
  if frame.length < 14 then .err .invalidArgument
  else
    .ok (frame.take 6, (frame.drop 6).take 6,
      256 * frame.getD 12 0 + frame.getD 13 0, frame.drop 14)

/-- `EthEndpoint::process`, applied to the outcome `res` of
`link_->recv()`: frame-type gate, Ethernet parse, MAC filter
(promiscuous accepts everything, otherwise destination must be the
endpoint's MAC or broadcast), then buffering with oldest-frame
eviction when the RX buffer is at capacity.  Returns the updated RX
buffer on success; the `usleep` on a not-yet-due frame only waits and
is not modelled. -/
def ethProcess (cfg : EthConfig) (mac : List Nat) (buf : List (List Nat))
    (res : Res Frame) : Res (List (List Nat)) :=
  match res with
  | .err e => .err e
  | .ok f =>
    if f.header.frame_type ≠ frameTypeEthernet then .err .invalidArgument
    else
      match parseEthFrame f.payload with
      | .err e => .err e
      | .ok p =>
        let is_for_us := cfg.promiscuous || (p.1 == mac || p.1 == macBroadcast)
        if is_for_us = false then .err .invalidArgument
        else
          let buf2 := if cfg.rx_buffer_size ≤ buf.length then buf.drop 1 else buf
          .ok (buf2 ++ [f.payload])

/-- C8: `EthEndpoint::process` buffers (surfaces) a received frame of
type ETHERNET with a parseable (≥ 14 byte) payload iff the endpoint is
promiscuous, or the frame's destination MAC - the first six payload
bytes - equals the endpoint's MAC or the broadcast MAC
FF:FF:FF:FF:FF:FF; every other frame is rejected and not buffered. -/
theorem ethProcess_mac_filter (cfg : EthConfig) (mac : List Nat)
    (buf : List (List Nat)) (f : Frame)
    (ht : f.header.frame_type = frameTypeEthernet)
    (hl : 14 ≤ f.payload.length) :
    ethProcess cfg mac buf (.ok f) =
        .ok ((if cfg.rx_buffer_size ≤ buf.length then buf.drop 1 else buf) ++ [f.payload]) ↔
      (cfg.promiscuous = true ∨ f.payload.take 6 = mac ∨ f.payload.take 6 = macBroadcast) := by
  simp only [ethProcess, parseEthFrame]
  rw [if_neg (by simp [ht]), if_neg (by omega)]
  by_cases hfor :
      (cfg.promiscuous || (f.payload.take 6 == mac || f.payload.take 6 == macBroadcast)) = true
  · simp only [hfor]
    simp only [Bool.or_eq_true, beq_iff_eq] at hfor
    simp [hfor]
  · simp only [Bool.not_eq_true] at hfor
    simp only [hfor]
    simp only [Bool.or_eq_false_iff, beq_eq_false_iff_ne] at hfor
    simp [hfor.1, hfor.2.1, hfor.2.2]

/-- The spec's MAC-filter scenario endpoint MAC 02:00:00:00:00:02. -/
def demoMac : List Nat := [2, 0, 0, 0, 0, 2]

/-- A received ETHERNET frame addressed to the broadcast MAC. -/
def broadcastFrame : Frame :=
  { header :=
      { magic := 0x57424954, version := 1, frame_type := frameTypeEthernet, flags := 0
        tx_timestamp_ns := 0, deliver_at_ns := 0, src_endpoint_id := 3
        dst_endpoint_id := 0, payload_len := 14, meta_len := 0 }
    payload := [255, 255, 255, 255, 255, 255, 2, 0, 0, 0, 0, 3, 8, 0]
    meta := [] }

/-- C8 witness: a non-promiscuous endpoint with MAC 02:00:00:00:00:02
accepts the broadcast-addressed frame into its empty RX buffer. -/
theorem ethProcess_mac_filter_witness :
    ethProcess ⟨1000000000, false, 100⟩ demoMac [] (.ok broadcastFrame) =
      .ok [broadcastFrame.payload] :=
  (ethProcess_mac_filter ⟨1000000000, false, 100⟩ demoMac [] broadcastFrame
      (by decide) (by decide)).mpr (Or.inr (Or.inr (by decide)))

/-- `wirebit::CanConfig`. -/
structure CanConfig where
  bitrate : Nat
  loopback : Bool
  listen_only : Bool
  rx_buffer_size : Nat
deriving DecidableEq, Repr

/-- `struct can_frame` (SocketCAN layout): 32-bit id carrying the
EFF/RTR/ERR flag bits, the DLC, and up to 8 data bytes (the three
pad/reserved bytes are held zero in this model). -/
structure CanFrame where
  can_id : Nat
  can_dlc : Nat
  data : List Nat
deriving DecidableEq, Repr

/-- `CAN_EFF_FLAG`: extended-frame-format bit of `can_id`. -/
def CAN_EFF_FLAG : Nat := 0x80000000

/-- The 16-byte `memcpy` image of a `can_frame`: little-endian id,
DLC, three zero pad/reserved bytes, 8 data bytes. -/
def canSerialize (cf : CanFrame) : List Nat :=
  encU 4 cf.can_id ++ [cf.can_dlc % 256, 0, 0, 0] ++
    (cf.data ++ List.replicate 8 0).take 8

/-- `CanEndpoint::send_can`: the DLC gate comes first - DLC > 8 fails
with `invalid_argument` before anything is serialized, paced, counted
or pushed.  Otherwise the frame is serialized, wrapped in a CAN
wirebit frame stamped `tx_timestamp_ns = now`, the frame time is
computed from overhead (67 extended / 47 standard) plus data bits plus
20% worst-case stuffing at the configured bitrate (a zero bitrate
would divide by zero in C++ and is not reached by the claims),
`last_tx_deliver_at_ns` advances to `max(now, last) + frame_time` and
is stamped as `deliver_at_ns`, and the frame goes to `ShmLink::send`
with the action outcome `act`.  Returns the result together with the
updated link and pacing cursor. -/
def sendCan (cfg : CanConfig) (eid : Nat) (L : ShmLink) (lastTx now : Nat)
    (act : FrameAction) (cf : CanFrame) : Res Unit × ShmLink × Nat :=
  if 8 < cf.can_dlc then (.err .invalidArgument, L, lastTx)
  else
    let payload := canSerialize cf
    let hdr : FrameHeader :=
      { magic := 0x57424954, version := 1, frame_type := frameTypeCan, flags := 0
        tx_timestamp_ns := now, deliver_at_ns := 0, src_endpoint_id := eid
        dst_endpoint_id := 0, payload_len := payload.length, meta_len := 0 }
    let overhead_bits := if Nat.land cf.can_id CAN_EFF_FLAG ≠ 0 then 67 else 47
    let data_bits := cf.can_dlc * 8
    let total_bits0 := overhead_bits + data_bits
    let total_bits := total_bits0 + total_bits0 / 5
    let frame_time_ns := total_bits * 1000000000 / cfg.bitrate
    let lastTx2 := (max now lastTx + frame_time_ns) % 2 ^ 64
    let fr : Frame :=
      { header := { hdr with deliver_at_ns := lastTx2 }, payload := payload, meta := [] }
    let res := sendA L now act fr
    (res.1, res.2, lastTx2)

/-- C9: `send_can` on a CAN frame with DLC > 8 fails with
`invalid_argument` and changes nothing: no frame is pushed, the link
state - rings, statistics, RNG, pacing - is returned unchanged, and so
is the endpoint's `last_tx_deliver_at_ns`. -/
theorem sendCan_bad_dlc (cfg : CanConfig) (eid : Nat) (L : ShmLink)
    (lastTx now : Nat) (act : FrameAction) (cf : CanFrame) (h : 8 < cf.can_dlc) :
    sendCan cfg eid L lastTx now act cf = (.err .invalidArgument, L, lastTx) := by
  unfold sendCan
  rw [if_pos h]

/-- C9 witness: the spec's scenario - `can_dlc = 15` - on a fresh link
at 500 kbps. -/
theorem sendCan_bad_dlc_witness :
    sendCan ⟨500000, false, false, 100⟩ 1 emptyLink 0 0 .DELIVER ⟨5, 15, []⟩ =
      (.err .invalidArgument, emptyLink, 0) :=
  sendCan_bad_dlc ⟨500000, false, false, 100⟩ 1 emptyLink 0 0 .DELIVER ⟨5, 15, []⟩
    (by decide)

end Wirebit
